import Mathlib

/-!
Shallow embedding of the WOD 2022 streaming aggregation engine
(`read_wod_2022.py`, class `WODReader`): the per-cast normalization and
append logic of `read_raw_data`, the schema of `initialize_variables`, the
size check `is_variable_too_big`, and the date decoding of `get_date`.

Modelling conventions:
- numeric series values are modelled as `Int` (the claims under study do not
  depend on floating-point rounding); the NaN missing sentinel and string
  cells are constructors of `Val`;
- a cast (`ds`, one NetCDF file) is a structure of optional fields: `none`
  models the field being absent from the file;
- Python exceptions that escape the loop body (KeyError from an absent
  variable, ValueError from `min` of an empty sequence) are modelled by
  `Except`-style error results that abort the run, as they do in the source;
- `sys.getsizeof` of a CPython list is its shallow container size (header
  plus pointer table), a function of the list's length/capacity only, never
  of the stored element values; it is modelled affinely in the length.
-/

namespace WOD2022

/-- Value stored in an accumulator cell: a number, a string, or the NaN
missing sentinel (`np.nan` in the source). -/
inductive Val
  | nan : Val
  | num : Int → Val
  | str : String → Val
deriving DecidableEq, Repr

/-- Python exceptions that can escape the per-cast loop body of
`read_raw_data` and abort the run. -/
inductive PyError
  | keyError : PyError
  | valueError : PyError
deriving DecidableEq, Repr

/-- One raw cast: the fields of one WOD NetCDF file that `read_raw_data`
reads. `none` models the field being absent from the file (`"x" in ds`
false). Series are `List Int`; scalar metadata fields are `Val`. -/
structure Cast where
  z : Option (List Int) := none
  pressure : Option (List Int) := none
  zWODflag : Option (List Int) := none
  temperature : Option (List Int) := none
  temperatureWODflag : Option (List Int) := none
  salinity : Option (List Int) := none
  salinityWODflag : Option (List Int) := none
  /-- the compact YYYYMMDD value of `ds["date"]`, when present -/
  date : Option Nat := none
  /-- the fractional-hour `ds["GMT_time"]` value, when present -/
  gmtTime : Option ℚ := none
  /-- whether `"orig_filename" in ds and len(ds["orig_filename"]) > 0` -/
  origFilenameNonempty : Bool := false
  /-- the loop variable `file`: the cast's file name -/
  filename : String := ""
  wodUniqueCast : Option Val := none
  origCruiseIdent : Option Val := none
  accessNo : Option Val := none
  platform : Option Val := none
  origStatNum : Option Val := none
  dataset : Option Val := none
  lat : Option Val := none
  lon : Option Val := none
  bottomDepth : Option Val := none
deriving DecidableEq, Repr

/-- The `data_lists` dictionary: one column per key of `string_attrs` and
`obs_attrs` (`initialize_variables`, lines 85-111). `parent_index` holds the
zero-based profile indices, kept as `List Nat`. -/
structure DataLists where
  orig_profile_ID : List Val
  orig_cruise_id : List Val
  access_no : List Val
  platform : List Val
  station_no : List Val
  instrument_type : List Val
  lat : List Val
  lon : List Val
  bottom_depth : List Val
  datestr : List Val
  timestamp : List Val
  orig_filename : List Val
  shallowest_depth : List Val
  deepest_depth : List Val
  parent_index : List Nat
  depth : List Val
  press : List Val
  temp : List Val
  psal : List Val
  depth_flag : List Val
  temp_flag : List Val
  psal_flag : List Val
deriving DecidableEq, Repr

/-- The `string_attrs` mapping of `initialize_variables` (lines 85-101):
output profile field name to source field name, with the empty string
marking a synthesized field. -/
def string_attrs : List (String × String) :=
  [("orig_profile_ID", "wod_unique_cast"),
   ("orig_cruise_id", "originators_cruise_identifier"),
   ("access_no", "Access_no"),
   ("platform", "Platform"),
   ("station_no", "Orig_Stat_Num"),
   ("instrument_type", "dataset"),
   ("lat", "lat"),
   ("lon", "lon"),
   ("bottom_depth", "Bottom_Depth"),
   ("datestr", ""),
   ("timestamp", ""),
   ("orig_filename", ""),
   ("shallowest_depth", ""),
   ("deepest_depth", ""),
   ("parent_index", "")]

/-- The `obs_attrs` mapping of `initialize_variables` (lines 102-110):
output observation field name to source field name. -/
def obs_attrs : List (String × String) :=
  [("depth", "z"),
   ("press", "Pressure"),
   ("temp", "Temperature"),
   ("psal", "Salinity"),
   ("depth_flag", "z_WODflag"),
   ("temp_flag", "Temperature_WODflag"),
   ("psal_flag", "Salinity_WODflag")]

/-- Fresh empty columns: `data_lists = {attr: [] for attr in ...}`
(line 111). -/
def emptyLists : DataLists :=
  { orig_profile_ID := [], orig_cruise_id := [], access_no := [],
    platform := [], station_no := [], instrument_type := [], lat := [],
    lon := [], bottom_depth := [], datestr := [], timestamp := [],
    orig_filename := [], shallowest_depth := [], deepest_depth := [],
    parent_index := [], depth := [], press := [], temp := [], psal := [],
    depth_flag := [], temp_flag := [], psal_flag := [] }

/-- The `initialize_variables` method (lines 77-113): returns the two schema
mappings, fresh empty columns, and the profile-index counter `i = 0`. -/
def initialize_variables :
    List (String × String) × List (String × String) × DataLists × Nat :=
  (string_attrs, obs_attrs, emptyLists, 0)

/-- Python `min` over a list: ValueError on an empty sequence, else the
least element (left fold of the binary min over the sequence). -/
def pyMin : List Int → Except PyError Int
  | [] => .error .valueError
  | x :: xs => .ok (xs.foldl min x)

/-- Python `max` over a list: ValueError on an empty sequence, else the
greatest element. -/
def pyMax : List Int → Except PyError Int
  | [] => .error .valueError
  | x :: xs => .ok (xs.foldl max x)

/-- Lines 157-160: `min(depth_list[depth_list != 0])` when the depth series
has more than one entry, else `min(depth_list)`. The numpy mask keeps, in
order, the entries different from exactly 0. -/
def shallowestOf (zs : List Int) : Except PyError Int :=
  if zs.length > 1 then pyMin (zs.filter fun d => d ≠ 0) else pyMin zs

/-- Gregorian leap-year rule used by Python `datetime`. -/
def isLeapYear (y : Nat) : Bool :=
  (y % 4 == 0 && y % 100 != 0) || y % 400 == 0

/-- Length of a month in Python `datetime`'s proleptic Gregorian calendar. -/
def daysInMonth (y m : Nat) : Nat :=
  if m = 2 then (if isLeapYear y then 29 else 28)
  else if m = 4 ∨ m = 6 ∨ m = 9 ∨ m = 11 then 30 else 31

/-- The `get_date` method (lines 57-75): year, month, day from the compact
YYYYMMDD value (first four digits, next two, remainder); hour is the integer
part of the fractional-hour GMT time, minute the fractional remainder times
60, truncated. -/
def get_date (date : Nat) (gmt : ℚ) : Nat × Nat × Nat × Int × Int :=
  (date / 10000, date / 100 % 100, date % 100,
   Rat.floor gmt, Rat.floor ((gmt - (Rat.floor gmt : ℚ)) * 60))

/-- Argument validation of the Python `datetime(year, month, day, hour,
minute)` constructor: it raises ValueError outside these ranges. -/
def validDatetime (y m d : Nat) (h mi : Int) : Bool :=
  1 ≤ y && y ≤ 9999 && 1 ≤ m && m ≤ 12 && 1 ≤ d && d ≤ daysInMonth y m &&
    0 ≤ h && h ≤ 23 && 0 ≤ mi && mi ≤ 59

/-- Days since 1970-01-01 in the proleptic Gregorian calendar (the civil
day-count computation), for the timestamp of a valid date. -/
def daysFromCivil (y m d : Nat) : Int :=
  let y' : Nat := y - (if m ≤ 2 then 1 else 0)
  let era : Nat := y' / 400
  let yoe : Nat := y' % 400
  let doy : Nat := (153 * (if m > 2 then m - 3 else m + 9) + 2) / 5 + (d - 1)
  let doe : Nat := yoe * 365 + yoe / 4 - yoe / 100 + doy
  (era * 146097 + doe : Int) - 719468

/-- Epoch seconds of `datetime(y, m, d, h, mi).timestamp()`; the local UTC
offset applied by the source's naive datetime is abstracted to zero. -/
def timestampOf (y m d : Nat) (h mi : Int) : Int :=
  daysFromCivil y m d * 86400 + h * 3600 + mi * 60

/-- Zero-padding to two digits, as in `strftime`. -/
def pad2 (n : Nat) : String :=
  if n < 10 then "0" ++ toString n else toString n

/-- Zero-padding to four digits, as in `strftime`. -/
def pad4 (n : Nat) : String :=
  if n < 10 then "000" ++ toString n
  else if n < 100 then "00" ++ toString n
  else if n < 1000 then "0" ++ toString n
  else toString n

/-- The string `datetime.strftime(datestr, "%Y/%m/%d %H:%M:%S")` of
line 199 (seconds are always zero). -/
def formatDatestr (y m d : Nat) (h mi : Int) : String :=
  pad4 y ++ "/" ++ pad2 m ++ "/" ++ pad2 d ++ " " ++ pad2 h.toNat ++ ":"
    ++ pad2 mi.toNat ++ ":00"

/-- The date handling of lines 194-205: when both `date` and `GMT_time` are
present and `datetime(...)` accepts the decoded components, the timestamp
and formatted string are produced; otherwise (a field absent, or the
constructor raising inside the try block) the result is unavailable and both
cells receive the NaN sentinel. -/
def dateResult (c : Cast) : Option (Int × String) :=
  match c.date, c.gmtTime with
  | some d, some g =>
    let (y, m, dd, h, mi) := get_date d g
    if validDatetime y m dd h mi then
      some (timestampOf y m dd h mi, formatDatestr y m dd h mi)
    else none
  | _, _ => none

/-- A numeric series appended verbatim to a column. -/
def numList (xs : List Int) : List Val := xs.map Val.num

/-- A fill of NaN sentinels: `[np.nan] * n` (also the result of the numpy
elementwise products `[np.nan] * depth_list` and `[np.nan] * temp_list`,
which yield an all-NaN array of the series' length). -/
def nanList (n : Nat) : List Val := List.replicate n Val.nan

/-- All column appends performed for one non-skipped cast with depth series
`zs`, shallowest depth `sh` and deepest depth `dp` (lines 134-212):
- `depth`/`press` per the branch taken at lines 134-148 (when `Pressure` is
  absent the fill `[np.nan] * len(depth_list)` is used);
- `depth_flag` from `z_WODflag` or an all-NaN fill (lines 152-155);
- `shallowest_depth`, `deepest_depth`, `parent_index` (lines 157-162);
- `psal`/`psal_flag` from `Salinity`/`Salinity_WODflag` or fills
  (lines 164-174); `temp`/`temp_flag` likewise (lines 176-186);
- `orig_filename` (lines 189-192), `datestr`/`timestamp` (lines 194-205);
- the nine mapped scalar metadata fields (lines 207-212). -/
def appendForm (lists : DataLists) (i : Nat) (c : Cast) (zs : List Int)
    (sh dp : Int) : DataLists :=
  { depth := lists.depth ++ numList zs,
    press := lists.press ++
      (match c.pressure with
       | some ps => numList ps
       | none => nanList zs.length),
    depth_flag := lists.depth_flag ++
      (match c.zWODflag with
       | some f => numList f
       | none => nanList zs.length),
    shallowest_depth := lists.shallowest_depth ++ [Val.num sh],
    deepest_depth := lists.deepest_depth ++ [Val.num dp],
    parent_index := lists.parent_index ++ List.replicate zs.length i,
    psal := lists.psal ++
      (match c.salinity with
       | some sal => numList sal
       | none => nanList zs.length),
    psal_flag := lists.psal_flag ++
      (match c.salinity with
       | some sal =>
         (match c.salinityWODflag with
          | some sf => numList sf
          | none => nanList sal.length)
       | none => nanList zs.length),
    temp := lists.temp ++
      (match c.temperature with
       | some t => numList t
       | none => nanList zs.length),
    temp_flag := lists.temp_flag ++
      (match c.temperature with
       | some t =>
         (match c.temperatureWODflag with
          | some tf => numList tf
          | none => nanList t.length)
       | none => nanList zs.length),
    orig_filename := lists.orig_filename ++
      [if c.origFilenameNonempty then Val.str c.filename else Val.nan],
    timestamp := lists.timestamp ++
      [(dateResult c).elim Val.nan fun p => Val.num p.1],
    datestr := lists.datestr ++
      [(dateResult c).elim Val.nan fun p => Val.str p.2],
    orig_profile_ID := lists.orig_profile_ID ++ [c.wodUniqueCast.getD Val.nan],
    orig_cruise_id := lists.orig_cruise_id ++ [c.origCruiseIdent.getD Val.nan],
    access_no := lists.access_no ++ [c.accessNo.getD Val.nan],
    platform := lists.platform ++ [c.platform.getD Val.nan],
    station_no := lists.station_no ++ [c.origStatNum.getD Val.nan],
    instrument_type := lists.instrument_type ++ [c.dataset.getD Val.nan],
    lat := lists.lat ++ [c.lat.getD Val.nan],
    lon := lists.lon ++ [c.lon.getD Val.nan],
    bottom_depth := lists.bottom_depth ++ [c.bottomDepth.getD Val.nan] }

/-- Result of the loop body of `read_raw_data` for one cast, before the size
check: `continue` at line 150 (skipped), an uncaught exception (the run
aborts), or the appended columns and the post-increment counter (line 215). -/
inductive StepResult
  | skipped : StepResult
  | appended : DataLists → Nat → StepResult
  | error : PyError → StepResult
deriving DecidableEq, Repr

/-- Lines 129-215 of `read_raw_data`, for one cast. The guard of line 134,
`if "z" and "Pressure" in ds`, evaluates as `"Pressure" in ds` (the string
literal is truthy), so whenever `Pressure` is present the first branch runs
and `ds["z"]` raises KeyError if `z` is absent; the `elif` of line 144 for
pressure-without-depth is unreachable. Only a cast with neither `z` nor
`Pressure` reaches the `continue` of line 150. The shallowest-depth `min`
of lines 157-160 (and the `max` of line 161) raise ValueError on an empty
selection. -/
def processCast (lists : DataLists) (i : Nat) (c : Cast) : StepResult :=
  match c.pressure, c.z with
  | some _, none => .error .keyError
  | some _, some zs
  | none, some zs =>
    (match shallowestOf zs, pyMax zs with
     | .error e, _ => .error e
     | .ok _, .error e => .error e
     | .ok sh, .ok dp => .appended (appendForm lists i c zs sh dp) (i + 1))
  | none, none => .skipped

/-- Model of `sys.getsizeof` applied to one CPython list: the shallow
container footprint, affine in the number of slots and independent of the
element values. -/
def listSize (n : Nat) : Nat := 56 + 8 * n

/-- The loop of lines 47-49 in `is_variable_too_big`: the sizes of the 22
column lists of `data_lists`, summed. -/
def total_sum (l : DataLists) : Nat :=
  listSize l.orig_profile_ID.length + listSize l.orig_cruise_id.length +
    listSize l.access_no.length + listSize l.platform.length +
    listSize l.station_no.length + listSize l.instrument_type.length +
    listSize l.lat.length + listSize l.lon.length +
    listSize l.bottom_depth.length + listSize l.datestr.length +
    listSize l.timestamp.length + listSize l.orig_filename.length +
    listSize l.shallowest_depth.length + listSize l.deepest_depth.length +
    listSize l.parent_index.length + listSize l.depth.length +
    listSize l.press.length + listSize l.temp.length +
    listSize l.psal.length + listSize l.depth_flag.length +
    listSize l.temp_flag.length + listSize l.psal_flag.length

/-- The `is_variable_too_big` method (lines 37-55): the summed sizes,
converted to MB by dividing by 1024*1024, compared against the 150 MB
threshold. -/
def is_variable_too_big (l : DataLists) : Bool :=
  if 150 * 1024 * 1024 ≤ total_sum l then true else false

/-- Driver state between casts: the live columns, the profile-index counter
`i`, and the units already written by `create_dataset`. -/
structure RState where
  lists : DataLists
  i : Nat
  outs : List DataLists
deriving DecidableEq, Repr

/-- Lines 214-222: after an append, when the size check trips, the current
columns are written as one output unit and `initialize_variables` rebuilds
fresh empty columns with the counter back at 0; otherwise accumulation
continues. -/
def step (s : RState) (c : Cast) : Except PyError RState :=
  match processCast s.lists s.i c with
  | .skipped => .ok s
  | .error e => .error e
  | .appended lists2 i2 =>
    if is_variable_too_big lists2 then
      .ok ⟨initialize_variables.2.2.1, initialize_variables.2.2.2,
           s.outs ++ [lists2]⟩
    else .ok ⟨lists2, i2, s.outs⟩

/-- State at entry of the loop of line 126: fresh columns, counter 0, no
unit written yet. -/
def initState : RState :=
  ⟨initialize_variables.2.2.1, initialize_variables.2.2.2, []⟩

/-- The `read_raw_data` method (lines 115-223) over a finite cast stream:
the per-cast loop, then the final unconditional `create_dataset` of
line 223. The result is the list of written output units, or the exception
that aborted the run. -/
def read_raw_data (casts : List Cast) : Except PyError (List DataLists) :=
  match casts.foldlM step initState with
  | .error e => .error e
  | .ok s => .ok (s.outs ++ [s.lists])

/-- Profile count P of an accumulator state or output unit: the length of
its first profile-level column. -/
def profileCount (l : DataLists) : Nat := l.orig_profile_ID.length

/-- Observation count O: the length of the `depth` column. -/
def obsCount (l : DataLists) : Nat := l.depth.length

/-- All 14 profile-level columns share the length `profileCount`. -/
def profileUniform (l : DataLists) : Prop :=
  l.orig_cruise_id.length = profileCount l ∧
    l.access_no.length = profileCount l ∧
    l.platform.length = profileCount l ∧
    l.station_no.length = profileCount l ∧
    l.instrument_type.length = profileCount l ∧
    l.lat.length = profileCount l ∧
    l.lon.length = profileCount l ∧
    l.bottom_depth.length = profileCount l ∧
    l.datestr.length = profileCount l ∧
    l.timestamp.length = profileCount l ∧
    l.orig_filename.length = profileCount l ∧
    l.shallowest_depth.length = profileCount l ∧
    l.deepest_depth.length = profileCount l

/-- All 8 observation-level columns (the seven measurement/flag columns and
`parent_index`) share the length `obsCount`. -/
def obsUniform (l : DataLists) : Prop :=
  l.press.length = obsCount l ∧
    l.temp.length = obsCount l ∧
    l.psal.length = obsCount l ∧
    l.depth_flag.length = obsCount l ∧
    l.temp_flag.length = obsCount l ∧
    l.psal_flag.length = obsCount l ∧
    l.parent_index.length = obsCount l

/-- Whether a present series has the stated length. -/
def optLenOk (o : Option (List Int)) (n : Nat) : Bool :=
  match o with
  | none => true
  | some l => l.length == n

/-- Well-formed cast: every present measurement or flag series has the same
length as the depth series, as the NetCDF observation dimension guarantees
for real WOD files (and as the spec's Cast Record contract requires). Casts
without a depth series are unconstrained. -/
def wfB (c : Cast) : Bool :=
  match c.z with
  | none => true
  | some zs =>
    optLenOk c.pressure zs.length && optLenOk c.zWODflag zs.length &&
      optLenOk c.temperature zs.length &&
      optLenOk c.temperatureWODflag zs.length &&
      optLenOk c.salinity zs.length && optLenOk c.salinityWODflag zs.length

/-- How the loop body disposes of a cast, independent of the accumulator
contents and counter. -/
inductive Outcome
  | skipped : Outcome
  | appended : Outcome
  | crashed : PyError → Outcome
deriving DecidableEq, Repr

/-- Disposition of one cast: derived from the loop body at a fresh state
(the branch taken depends only on the cast's own fields). -/
def castOutcome (c : Cast) : Outcome :=
  match processCast emptyLists 0 c with
  | .skipped => .skipped
  | .appended _ _ => .appended
  | .error e => .crashed e

/-- Observation count contributed by a cast: the length of its depth
series, which is what every `len(depth_list)` fill and the `parent_index`
extension use. -/
def castObsCount (c : Cast) : Nat :=
  match c.z with
  | some zs => zs.length
  | none => 0

/-- Parent-index consistency of one unit or accumulator snapshot: every
entry below the profile count, entries non-decreasing. -/
def unitGood (u : DataLists) : Prop :=
  (∀ e ∈ u.parent_index, e < profileCount u) ∧
    u.parent_index.Chain' (· ≤ ·)

/-- Driver invariant: the live profile count equals the counter `i`, the
live profile columns are uniform, live parent-index entries are bounded by
`i` and non-decreasing, and every written unit satisfies parent-index
consistency and profile uniformity. -/
def Inv (s : RState) : Prop :=
  profileCount s.lists = s.i ∧ profileUniform s.lists ∧
    (∀ e ∈ s.lists.parent_index, e < s.i) ∧
    s.lists.parent_index.Chain' (· ≤ ·) ∧
    ∀ u ∈ s.outs, unitGood u ∧ profileUniform u

/-- Observation-side invariant, meaningful for well-formed casts. -/
def ObsInv (s : RState) : Prop :=
  obsUniform s.lists ∧ ∀ u ∈ s.outs, obsUniform u


/-- Columnwise equality of lengths between two accumulator states. -/
def lenEq (a b : DataLists) : Prop :=
  a.orig_profile_ID.length = b.orig_profile_ID.length ∧
    a.orig_cruise_id.length = b.orig_cruise_id.length ∧
    a.access_no.length = b.access_no.length ∧
    a.platform.length = b.platform.length ∧
    a.station_no.length = b.station_no.length ∧
    a.instrument_type.length = b.instrument_type.length ∧
    a.lat.length = b.lat.length ∧
    a.lon.length = b.lon.length ∧
    a.bottom_depth.length = b.bottom_depth.length ∧
    a.datestr.length = b.datestr.length ∧
    a.timestamp.length = b.timestamp.length ∧
    a.orig_filename.length = b.orig_filename.length ∧
    a.shallowest_depth.length = b.shallowest_depth.length ∧
    a.deepest_depth.length = b.deepest_depth.length ∧
    a.parent_index.length = b.parent_index.length ∧
    a.depth.length = b.depth.length ∧
    a.press.length = b.press.length ∧
    a.temp.length = b.temp.length ∧
    a.psal.length = b.psal.length ∧
    a.depth_flag.length = b.depth_flag.length ∧
    a.temp_flag.length = b.temp_flag.length ∧
    a.psal_flag.length = b.psal_flag.length

/-- Pointwise relation between two cast streams for the value-independence
argument: same disposition, same observation count, both well-formed; the
stored values are otherwise unconstrained. -/
def ShapeRel (c1 c2 : Cast) : Prop :=
  castOutcome c1 = castOutcome c2 ∧ castObsCount c1 = castObsCount c2 ∧
    wfB c1 = true ∧ wfB c2 = true

/-! ## Concrete inputs used to instantiate the theorems -/

/-- A cast exposing only a pressure series: the input on which the guard of
line 134 misfires. -/
def pressureOnlyCast : Cast := { pressure := some [10] }

/-- A minimal appendable cast: a single depth observation. -/
def smallCast : Cast := { z := some [5] }

/-- The columns after appending `smallCast` to fresh columns with counter
0. -/
def smallOut : DataLists :=
  { orig_profile_ID := [Val.nan], orig_cruise_id := [Val.nan],
    access_no := [Val.nan], platform := [Val.nan], station_no := [Val.nan],
    instrument_type := [Val.nan], lat := [Val.nan], lon := [Val.nan],
    bottom_depth := [Val.nan], datestr := [Val.nan], timestamp := [Val.nan],
    orig_filename := [Val.nan], shallowest_depth := [Val.num 5],
    deepest_depth := [Val.num 5], parent_index := [0],
    depth := [Val.num 5], press := [Val.nan], temp := [Val.nan],
    psal := [Val.nan], depth_flag := [Val.nan], temp_flag := [Val.nan],
    psal_flag := [Val.nan] }

/-- A cast whose depth series contains a zero entry among several. -/
def multiCast : Cast := { z := some [0, 3, 2] }

/-- A cast with more than one depth observation, all exactly zero. -/
def allZeroCast : Cast := { z := some [0, 0] }

/-- A cast with both date fields present but an invalid calendar date
(month 13), so the datetime constructor raises inside the try block. -/
def dateFailCast : Cast :=
  { z := some [4], date := some 20211301, gmtTime := some 5 }

/-- The columns after appending `dateFailCast` to fresh columns. -/
def dateFailOut : DataLists :=
  { orig_profile_ID := [Val.nan], orig_cruise_id := [Val.nan],
    access_no := [Val.nan], platform := [Val.nan], station_no := [Val.nan],
    instrument_type := [Val.nan], lat := [Val.nan], lon := [Val.nan],
    bottom_depth := [Val.nan], datestr := [Val.nan], timestamp := [Val.nan],
    orig_filename := [Val.nan], shallowest_depth := [Val.num 4],
    deepest_depth := [Val.num 4], parent_index := [0],
    depth := [Val.num 4], press := [Val.nan], temp := [Val.nan],
    psal := [Val.nan], depth_flag := [Val.nan], temp_flag := [Val.nan],
    psal_flag := [Val.nan] }

/-- An accumulator already holding enough cells to cross the 150 MB
threshold right after one more append. -/
def bigLists : DataLists := { emptyLists with platform := nanList 20000000 }

/-- Driver state carrying `bigLists` with a nonzero counter. -/
def bigState : RState := ⟨bigLists, 7, []⟩

/-- The columns after appending `smallCast` to `bigLists` with counter 7:
the accumulated unit that crosses the threshold. -/
def bigOut : DataLists := appendForm bigLists 7 smallCast [5] 5 5

/-- Same shape as `smallCast`, different stored value. -/
def shapeCastA : Cast := { z := some [7] }

/-- Same shape as `smallCast`, another stored value. -/
def shapeCastB : Cast := { z := some [9] }

/-- A cast with a single depth observation equal to exactly zero. -/
def zeroCast : Cast := { z := some [0] }

/-- The columns after appending `zeroCast` to fresh columns. -/
def zeroOut : DataLists :=
  { orig_profile_ID := [Val.nan], orig_cruise_id := [Val.nan],
    access_no := [Val.nan], platform := [Val.nan], station_no := [Val.nan],
    instrument_type := [Val.nan], lat := [Val.nan], lon := [Val.nan],
    bottom_depth := [Val.nan], datestr := [Val.nan], timestamp := [Val.nan],
    orig_filename := [Val.nan], shallowest_depth := [Val.num 0],
    deepest_depth := [Val.num 0], parent_index := [0],
    depth := [Val.num 0], press := [Val.nan],
    temp := [Val.nan], psal := [Val.nan],
    depth_flag := [Val.nan], temp_flag := [Val.nan],
    psal_flag := [Val.nan] }

/-- The columns after appending `multiCast` to fresh columns. -/
def multiOut : DataLists :=
  { orig_profile_ID := [Val.nan], orig_cruise_id := [Val.nan],
    access_no := [Val.nan], platform := [Val.nan], station_no := [Val.nan],
    instrument_type := [Val.nan], lat := [Val.nan], lon := [Val.nan],
    bottom_depth := [Val.nan], datestr := [Val.nan], timestamp := [Val.nan],
    orig_filename := [Val.nan], shallowest_depth := [Val.num 2],
    deepest_depth := [Val.num 3], parent_index := [0, 0, 0],
    depth := [Val.num 0, Val.num 3, Val.num 2], press := [Val.nan, Val.nan, Val.nan],
    temp := [Val.nan, Val.nan, Val.nan], psal := [Val.nan, Val.nan, Val.nan],
    depth_flag := [Val.nan, Val.nan, Val.nan], temp_flag := [Val.nan, Val.nan, Val.nan],
    psal_flag := [Val.nan, Val.nan, Val.nan] }

/-- The columns after appending `shapeCastA` to fresh columns. -/
def shapeOutA : DataLists :=
  { orig_profile_ID := [Val.nan], orig_cruise_id := [Val.nan],
    access_no := [Val.nan], platform := [Val.nan], station_no := [Val.nan],
    instrument_type := [Val.nan], lat := [Val.nan], lon := [Val.nan],
    bottom_depth := [Val.nan], datestr := [Val.nan], timestamp := [Val.nan],
    orig_filename := [Val.nan], shallowest_depth := [Val.num 7],
    deepest_depth := [Val.num 7], parent_index := [0],
    depth := [Val.num 7], press := [Val.nan],
    temp := [Val.nan], psal := [Val.nan],
    depth_flag := [Val.nan], temp_flag := [Val.nan],
    psal_flag := [Val.nan] }

/-- The columns after appending `shapeCastB` to fresh columns. -/
def shapeOutB : DataLists :=
  { orig_profile_ID := [Val.nan], orig_cruise_id := [Val.nan],
    access_no := [Val.nan], platform := [Val.nan], station_no := [Val.nan],
    instrument_type := [Val.nan], lat := [Val.nan], lon := [Val.nan],
    bottom_depth := [Val.nan], datestr := [Val.nan], timestamp := [Val.nan],
    orig_filename := [Val.nan], shallowest_depth := [Val.num 9],
    deepest_depth := [Val.num 9], parent_index := [0],
    depth := [Val.num 9], press := [Val.nan],
    temp := [Val.nan], psal := [Val.nan],
    depth_flag := [Val.nan], temp_flag := [Val.nan],
    psal_flag := [Val.nan] }

/-! ## Basic properties of the fallible min/max -/

theorem foldl_min_le_init : ∀ (xs : List Int) (x : Int), xs.foldl min x ≤ x
  | [], x => le_refl x
  | y :: ys, x => by
    simpa using le_trans (foldl_min_le_init ys (min x y)) (min_le_left x y)

theorem foldl_min_le_mem :
    ∀ (xs : List Int) (x y : Int), y ∈ xs → xs.foldl min x ≤ y
  | [], _, _, h => by cases h
  | z :: zs, x, y, h => by
    simp only [List.foldl_cons]
    rcases List.mem_cons.1 h with rfl | h1
    · exact le_trans (foldl_min_le_init zs (min x y)) (min_le_right x y)
    · exact foldl_min_le_mem zs (min x z) y h1

theorem foldl_min_mem : ∀ (xs : List Int) (x : Int), xs.foldl min x ∈ x :: xs
  | [], x => by simp
  | y :: ys, x => by
    have h := foldl_min_mem ys (min x y)
    simp only [List.foldl_cons]
    rcases List.mem_cons.1 h with h1 | h1
    · rcases le_total x y with hxy | hxy
      · rw [h1, min_eq_left hxy]; exact List.mem_cons_self _ _
      · rw [h1, min_eq_right hxy]; simp
    · simp [h1]

theorem foldl_max_ge_init : ∀ (xs : List Int) (x : Int), x ≤ xs.foldl max x
  | [], x => le_refl x
  | y :: ys, x => by
    simpa using le_trans (le_max_left x y) (foldl_max_ge_init ys (max x y))

theorem foldl_max_ge_mem :
    ∀ (xs : List Int) (x y : Int), y ∈ xs → y ≤ xs.foldl max x
  | [], _, _, h => by cases h
  | z :: zs, x, y, h => by
    simp only [List.foldl_cons]
    rcases List.mem_cons.1 h with rfl | h1
    · exact le_trans (le_max_right x y) (foldl_max_ge_init zs (max x y))
    · exact foldl_max_ge_mem zs (max x z) y h1

theorem foldl_max_mem : ∀ (xs : List Int) (x : Int), xs.foldl max x ∈ x :: xs
  | [], x => by simp
  | y :: ys, x => by
    have h := foldl_max_mem ys (max x y)
    simp only [List.foldl_cons]
    rcases List.mem_cons.1 h with h1 | h1
    · rcases le_total x y with hxy | hxy
      · rw [h1, max_eq_right hxy]; simp
      · rw [h1, max_eq_left hxy]; exact List.mem_cons_self _ _
    · simp [h1]

/-- Python `min` over a nonempty sequence yields a member that is a lower
bound. -/
theorem pyMin_spec {xs : List Int} {m : Int} (h : pyMin xs = .ok m) :
    m ∈ xs ∧ ∀ y ∈ xs, m ≤ y := by
  cases xs with
  | nil => simp [pyMin] at h
  | cons x tl =>
    simp only [pyMin, Except.ok.injEq] at h
    subst h
    refine ⟨foldl_min_mem tl x, ?_⟩
    intro y hy
    rcases List.mem_cons.1 hy with rfl | hy
    · exact foldl_min_le_init tl y
    · exact foldl_min_le_mem tl x y hy

/-- Python `max` over a nonempty sequence yields a member that is an upper
bound. -/
theorem pyMax_spec {xs : List Int} {m : Int} (h : pyMax xs = .ok m) :
    m ∈ xs ∧ ∀ y ∈ xs, y ≤ m := by
  cases xs with
  | nil => simp [pyMax] at h
  | cons x tl =>
    simp only [pyMax, Except.ok.injEq] at h
    subst h
    refine ⟨foldl_max_mem tl x, ?_⟩
    intro y hy
    rcases List.mem_cons.1 hy with rfl | hy
    · exact foldl_max_ge_init tl y
    · exact foldl_max_ge_mem tl x y hy

theorem pyMin_ok_of_ne_nil {xs : List Int} (h : xs ≠ []) :
    ∃ m, pyMin xs = .ok m := by
  cases xs with
  | nil => exact absurd rfl h
  | cons x tl => exact ⟨tl.foldl min x, rfl⟩

theorem pyMax_ok_of_ne_nil {xs : List Int} (h : xs ≠ []) :
    ∃ m, pyMax xs = .ok m := by
  cases xs with
  | nil => exact absurd rfl h
  | cons x tl => exact ⟨tl.foldl max x, rfl⟩

theorem shallowestOf_ok_ne_nil {zs : List Int} {sh : Int}
    (h : shallowestOf zs = .ok sh) : zs ≠ [] := by
  intro hnil
  subst hnil
  simp [shallowestOf, pyMin] at h

/-! ## Case analysis of the loop body -/

/-- Master case analysis: for any accumulator contents and counter, the loop
body either skips the cast (neither depth nor pressure present), aborts with
the exception determined by the cast alone, or appends exactly the columns
of `appendForm` and increments the counter. -/
theorem processCast_cases (lists : DataLists) (i : Nat) (c : Cast) :
    (castOutcome c = .skipped ∧ processCast lists i c = .skipped ∧
      c.z = none ∧ c.pressure = none) ∨
    (∃ e, castOutcome c = .crashed e ∧ processCast lists i c = .error e) ∨
    (∃ zs sh dp, castOutcome c = .appended ∧ c.z = some zs ∧
      shallowestOf zs = .ok sh ∧ pyMax zs = .ok dp ∧
      processCast lists i c =
        .appended (appendForm lists i c zs sh dp) (i + 1)) := by
  rcases hz : c.z with _ | zs
  · rcases hp : c.pressure with _ | ps
    · exact Or.inl ⟨by simp [castOutcome, processCast, hp, hz], by
        simp [processCast, hp, hz], rfl, rfl⟩
    · exact Or.inr (Or.inl ⟨.keyError,
        by simp [castOutcome, processCast, hp, hz],
        by simp [processCast, hp, hz]⟩)
  · cases hsh : shallowestOf zs with
    | error e =>
      refine Or.inr (Or.inl ⟨e, ?_, ?_⟩) <;>
        rcases hp : c.pressure with _ | ps <;>
          simp [castOutcome, processCast, hp, hz, hsh]
    | ok sh =>
      obtain ⟨dp, hdp⟩ := pyMax_ok_of_ne_nil (shallowestOf_ok_ne_nil hsh)
      refine Or.inr (Or.inr ⟨zs, sh, dp, ?_, rfl, hsh, hdp, ?_⟩) <;>
        rcases hp : c.pressure with _ | ps <;>
          simp [castOutcome, processCast, hp, hz, hsh, hdp]

/-- Inversion: an append determines the depth series, the two extrema, the
appended columns and the incremented counter. -/
theorem processCast_appended_inv {lists : DataLists} {i : Nat} {c : Cast}
    {lists2 : DataLists} {i2 : Nat}
    (h : processCast lists i c = .appended lists2 i2) :
    ∃ zs sh dp, c.z = some zs ∧ castOutcome c = .appended ∧
      shallowestOf zs = .ok sh ∧ pyMax zs = .ok dp ∧
      lists2 = appendForm lists i c zs sh dp ∧ i2 = i + 1 := by
  rcases processCast_cases lists i c with ⟨_, h2, _, _⟩ | ⟨e, _, h2⟩ |
    ⟨zs, sh, dp, ho, hzz, hsh, hdp, h2⟩
  · rw [h2] at h; cases h
  · rw [h2] at h; cases h
  · have h3 := h2.symm.trans h
    injection h3 with h4 h5
    exact ⟨zs, sh, dp, hzz, ho, hsh, hdp, h4.symm, h5.symm⟩

/-- A skipped cast leaves the loop body without any append. -/
theorem processCast_skipped_inv {lists : DataLists} {i : Nat} {c : Cast}
    (h : processCast lists i c = .skipped) :
    c.z = none ∧ c.pressure = none ∧ castOutcome c = .skipped := by
  rcases processCast_cases lists i c with ⟨ho, h2, hz, hp⟩ | ⟨e, _, h2⟩ |
    ⟨zs, sh, dp, _, _, _, _, h2⟩
  · exact ⟨hz, hp, ho⟩
  · rw [h2] at h; cases h
  · rw [h2] at h; cases h

/-! ## Column growth of one append -/

/-- Every profile-level column grows by exactly one cell per appended
cast. -/
theorem appendForm_profile_lengths (lists : DataLists) (i : Nat) (c : Cast)
    (zs : List Int) (sh dp : Int) :
    (appendForm lists i c zs sh dp).orig_profile_ID.length =
        lists.orig_profile_ID.length + 1 ∧
      (appendForm lists i c zs sh dp).orig_cruise_id.length =
        lists.orig_cruise_id.length + 1 ∧
      (appendForm lists i c zs sh dp).access_no.length =
        lists.access_no.length + 1 ∧
      (appendForm lists i c zs sh dp).platform.length =
        lists.platform.length + 1 ∧
      (appendForm lists i c zs sh dp).station_no.length =
        lists.station_no.length + 1 ∧
      (appendForm lists i c zs sh dp).instrument_type.length =
        lists.instrument_type.length + 1 ∧
      (appendForm lists i c zs sh dp).lat.length = lists.lat.length + 1 ∧
      (appendForm lists i c zs sh dp).lon.length = lists.lon.length + 1 ∧
      (appendForm lists i c zs sh dp).bottom_depth.length =
        lists.bottom_depth.length + 1 ∧
      (appendForm lists i c zs sh dp).datestr.length =
        lists.datestr.length + 1 ∧
      (appendForm lists i c zs sh dp).timestamp.length =
        lists.timestamp.length + 1 ∧
      (appendForm lists i c zs sh dp).orig_filename.length =
        lists.orig_filename.length + 1 ∧
      (appendForm lists i c zs sh dp).shallowest_depth.length =
        lists.shallowest_depth.length + 1 ∧
      (appendForm lists i c zs sh dp).deepest_depth.length =
        lists.deepest_depth.length + 1 := by
  simp [appendForm]

/-- Under the length well-formedness of real WOD files, every
observation-level column grows by exactly the cast's observation count. -/
theorem appendForm_obs_lengths (lists : DataLists) (i : Nat) (c : Cast)
    (zs : List Int) (sh dp : Int) (hw : wfB c = true) (hz : c.z = some zs) :
    (appendForm lists i c zs sh dp).depth.length =
        lists.depth.length + zs.length ∧
      (appendForm lists i c zs sh dp).press.length =
        lists.press.length + zs.length ∧
      (appendForm lists i c zs sh dp).temp.length =
        lists.temp.length + zs.length ∧
      (appendForm lists i c zs sh dp).psal.length =
        lists.psal.length + zs.length ∧
      (appendForm lists i c zs sh dp).depth_flag.length =
        lists.depth_flag.length + zs.length ∧
      (appendForm lists i c zs sh dp).temp_flag.length =
        lists.temp_flag.length + zs.length ∧
      (appendForm lists i c zs sh dp).psal_flag.length =
        lists.psal_flag.length + zs.length ∧
      (appendForm lists i c zs sh dp).parent_index.length =
        lists.parent_index.length + zs.length := by
  rw [wfB, hz] at hw
  simp only [Bool.and_eq_true] at hw
  obtain ⟨⟨⟨⟨⟨hpre, hzfl⟩, htem⟩, htfl⟩, hsal⟩, hsfl⟩ := hw
  refine ⟨by simp [appendForm, numList], ?_, ?_, ?_, ?_, ?_, ?_,
    by simp [appendForm]⟩
  · rcases hp : c.pressure with _ | ps
    · simp [appendForm, hp, nanList]
    · rw [hp] at hpre
      simp only [optLenOk, beq_iff_eq] at hpre
      simp [appendForm, hp, numList, hpre]
  · rcases ht : c.temperature with _ | t
    · simp [appendForm, ht, nanList]
    · rw [ht] at htem
      simp only [optLenOk, beq_iff_eq] at htem
      simp [appendForm, ht, numList, htem]
  · rcases hs : c.salinity with _ | sal
    · simp [appendForm, hs, nanList]
    · rw [hs] at hsal
      simp only [optLenOk, beq_iff_eq] at hsal
      simp [appendForm, hs, numList, hsal]
  · rcases hf : c.zWODflag with _ | f
    · simp [appendForm, hf, nanList]
    · rw [hf] at hzfl
      simp only [optLenOk, beq_iff_eq] at hzfl
      simp [appendForm, hf, numList, hzfl]
  · rcases ht : c.temperature with _ | t
    · simp [appendForm, ht, nanList]
    · rw [ht] at htem
      simp only [optLenOk, beq_iff_eq] at htem
      rcases hf : c.temperatureWODflag with _ | tf
      · simp [appendForm, ht, hf, nanList, htem]
      · rw [hf] at htfl
        simp only [optLenOk, beq_iff_eq] at htfl
        simp [appendForm, ht, hf, numList, htfl]
  · rcases hs : c.salinity with _ | sal
    · simp [appendForm, hs, nanList]
    · rw [hs] at hsal
      simp only [optLenOk, beq_iff_eq] at hsal
      rcases hf : c.salinityWODflag with _ | sf
      · simp [appendForm, hs, hf, nanList, hsal]
      · rw [hf] at hsfl
        simp only [optLenOk, beq_iff_eq] at hsfl
        simp [appendForm, hs, hf, numList, hsfl]

/-! ## Parent-index and uniformity invariants of the driver -/

theorem initialize_variables_lists : initialize_variables.2.2.1 = emptyLists :=
  rfl

theorem initialize_variables_counter : initialize_variables.2.2.2 = 0 := rfl

theorem profileCount_empty : profileCount emptyLists = 0 := rfl

theorem obsCount_empty : obsCount emptyLists = 0 := rfl

theorem profileUniform_empty : profileUniform emptyLists := by
  simp [profileUniform, emptyLists, profileCount]

theorem obsUniform_empty : obsUniform emptyLists := by
  simp [obsUniform, emptyLists, obsCount]

theorem chain_le_replicate (n a : Nat) :
    List.Chain' (· ≤ ·) (List.replicate n a) := by
  induction n with
  | zero => simp
  | succ k ih =>
    rw [List.replicate_succ]
    cases k with
    | zero => simp
    | succ m =>
      rw [List.replicate_succ, List.chain'_cons]
      exact ⟨le_refl a, by rw [← List.replicate_succ]; exact ih⟩

theorem chain_append_replicate (l : List Nat) (n a : Nat)
    (hc : l.Chain' (· ≤ ·)) (hb : ∀ e ∈ l, e ≤ a) :
    (l ++ List.replicate n a).Chain' (· ≤ ·) := by
  apply hc.append (chain_le_replicate n a)
  intro x hx y hy
  have hxl : x ∈ l := by
    rcases List.mem_getLast?_eq_getLast hx with ⟨h1, h2⟩
    rw [h2]
    exact List.getLast_mem h1
  have hya : y = a := by
    cases n with
    | zero => simp at hy
    | succ m =>
      rw [List.replicate_succ] at hy
      simp at hy
      exact hy.symm
  rw [hya]
  exact hb x hxl

/-- The profile count of one append is the incremented counter value. -/
theorem profileCount_appendForm (lists : DataLists) (i : Nat) (c : Cast)
    (zs : List Int) (sh dp : Int) :
    profileCount (appendForm lists i c zs sh dp) = profileCount lists + 1 :=
  (appendForm_profile_lengths lists i c zs sh dp).1

theorem profileUniform_appendForm (lists : DataLists) (i : Nat) (c : Cast)
    (zs : List Int) (sh dp : Int) (h : profileUniform lists) :
    profileUniform (appendForm lists i c zs sh dp) := by
  obtain ⟨h1, h2, h3, h4, h5, h6, h7, h8, h9, h10, h11, h12, h13⟩ := h
  simp only [profileUniform, profileCount, appendForm, List.length_append,
    List.length_cons, List.length_nil] at *
  omega

/-- Parent-index facts after one append: the new entries are exactly the
pre-increment counter value, bounds and monotonicity carry over. -/
theorem unitGood_appendForm (lists : DataLists) (i : Nat) (c : Cast)
    (zs : List Int) (sh dp : Int) (hcnt : profileCount lists = i)
    (hbound : ∀ e ∈ lists.parent_index, e < i)
    (hchain : lists.parent_index.Chain' (· ≤ ·)) :
    unitGood (appendForm lists i c zs sh dp) := by
  constructor
  · intro e he
    rw [profileCount_appendForm, hcnt]
    simp only [appendForm, List.mem_append] at he
    rcases he with he | he
    · exact Nat.lt_succ_of_lt (hbound e he)
    · rw [List.eq_of_mem_replicate he]
      exact Nat.lt_succ_self i
  · show List.Chain' (· ≤ ·)
      (lists.parent_index ++ List.replicate zs.length i)
    exact chain_append_replicate _ _ _ hchain
      fun e he => Nat.le_of_lt (hbound e he)

/-- One driver step preserves the parent-index/profile invariant, for any
cast whatsoever. -/
theorem step_preserves_inv {s s' : RState} {c : Cast}
    (h : step s c = .ok s') (hinv : Inv s) : Inv s' := by
  obtain ⟨hP, hPU, hPE, hPC, hOuts⟩ := hinv
  rcases processCast_cases s.lists s.i c with ⟨_, h2, _, _⟩ | ⟨e, _, h2⟩ |
    ⟨zs, sh, dp, _, hz, hsh, hdp, h2⟩
  · simp only [step, h2, Except.ok.injEq] at h
    rw [← h]
    exact ⟨hP, hPU, hPE, hPC, hOuts⟩
  · simp only [step, h2] at h
    cases h
  · simp only [step, h2] at h
    have hgood := unitGood_appendForm s.lists s.i c zs sh dp hP hPE hPC
    have huni := profileUniform_appendForm s.lists s.i c zs sh dp hPU
    have hcnt := profileCount_appendForm s.lists s.i c zs sh dp
    cases hbig : is_variable_too_big (appendForm s.lists s.i c zs sh dp) with
    | true =>
      rw [if_pos hbig] at h
      simp only [Except.ok.injEq] at h
      rw [← h]
      refine ⟨rfl, profileUniform_empty, by simp [initialize_variables_lists,
        emptyLists], by simp [initialize_variables_lists, emptyLists], ?_⟩
      intro u hu
      simp only [List.mem_append, List.mem_singleton] at hu
      rcases hu with hu | hu
      · exact hOuts u hu
      · rw [hu]
        exact ⟨hgood, huni⟩
    | false =>
      rw [if_neg (by simp [hbig])] at h
      simp only [Except.ok.injEq] at h
      rw [← h]
      refine ⟨by rw [hcnt, hP], huni, ?_, hgood.2, hOuts⟩
      intro e he
      have := hgood.1 e he
      rwa [hcnt, hP] at this

/-- One driver step preserves observation-column uniformity for a
well-formed cast. -/
theorem step_preserves_obsinv {s s' : RState} {c : Cast}
    (h : step s c = .ok s') (hw : wfB c = true) (hinv : ObsInv s) :
    ObsInv s' := by
  obtain ⟨hU, hOuts⟩ := hinv
  rcases processCast_cases s.lists s.i c with ⟨_, h2, _, _⟩ | ⟨e, _, h2⟩ |
    ⟨zs, sh, dp, _, hz, hsh, hdp, h2⟩
  · simp only [step, h2, Except.ok.injEq] at h
    rw [← h]
    exact ⟨hU, hOuts⟩
  · simp only [step, h2] at h
    cases h
  · simp only [step, h2] at h
    have huni : obsUniform (appendForm s.lists s.i c zs sh dp) := by
      obtain ⟨o1, o2, o3, o4, o5, o6, o7, o8⟩ :=
        appendForm_obs_lengths s.lists s.i c zs sh dp hw hz
      obtain ⟨u1, u2, u3, u4, u5, u6, u7⟩ := hU
      unfold obsUniform obsCount at *
      omega
    cases hbig : is_variable_too_big (appendForm s.lists s.i c zs sh dp) with
    | true =>
      rw [if_pos hbig] at h
      simp only [Except.ok.injEq] at h
      rw [← h]
      refine ⟨obsUniform_empty, ?_⟩
      intro u hu
      simp only [List.mem_append, List.mem_singleton] at hu
      rcases hu with hu | hu
      · exact hOuts u hu
      · rw [hu]; exact huni
    | false =>
      rw [if_neg (by simp [hbig])] at h
      simp only [Except.ok.injEq] at h
      rw [← h]
      exact ⟨huni, hOuts⟩

/-- Fold-level invariant propagation along a successful run segment. -/
theorem foldlM_inv (P : RState → Prop) (Q : Cast → Prop)
    (hstep : ∀ s c s', Q c → P s → step s c = .ok s' → P s') :
    ∀ (casts : List Cast) (s0 s : RState), (∀ c ∈ casts, Q c) → P s0 →
      List.foldlM step s0 casts = .ok s → P s := by
  intro casts
  induction casts with
  | nil =>
    intro s0 s _ hp h
    simp only [List.foldlM_nil, pure, Except.pure, Except.ok.injEq] at h
    rw [← h]
    exact hp
  | cons c cs ih =>
    intro s0 s hq hp h
    rw [List.foldlM_cons] at h
    cases hstep0 : step s0 c with
    | error e =>
      rw [hstep0] at h
      simp only [bind, Except.bind] at h
      cases h
    | ok s1 =>
      rw [hstep0] at h
      simp only [bind, Except.bind] at h
      exact ih s1 s (fun d hd => hq d (List.mem_cons_of_mem c hd))
        (hstep s0 c s1 (hq c (List.mem_cons_self c cs)) hp hstep0) h

/-! ## Row conservation across flush boundaries -/

/-- Profile-row conservation: along a successful run segment, the profile
rows already flushed plus the live counter grow by exactly one per appended
cast; the live profile count always equals the counter. -/
theorem run_profile_conservation :
    ∀ (casts : List Cast) (l0 : DataLists) (i0 : Nat) (o0 : List DataLists)
      (s : RState), profileCount l0 = i0 →
      List.foldlM step ⟨l0, i0, o0⟩ casts = .ok s →
      profileCount s.lists = s.i ∧
        (s.outs.map profileCount).sum + s.i =
          (o0.map profileCount).sum + i0 +
            (casts.filter fun d => castOutcome d == Outcome.appended).length := by
  intro casts
  induction casts with
  | nil =>
    intro l0 i0 o0 s hP h
    simp only [List.foldlM_nil, pure, Except.pure, Except.ok.injEq] at h
    rw [← h]
    simp [hP]
  | cons c cs ih =>
    intro l0 i0 o0 s hP h
    rw [List.foldlM_cons] at h
    cases hstep0 : step ⟨l0, i0, o0⟩ c with
    | error e =>
      rw [hstep0] at h
      simp only [bind, Except.bind] at h
      cases h
    | ok s1 =>
      rw [hstep0] at h
      simp only [bind, Except.bind] at h
      rcases processCast_cases l0 i0 c with ⟨ho, h2, _, _⟩ |
        ⟨e, ho, h2⟩ | ⟨zs, sh, dp, ho, hz, hsh, hdp, h2⟩
      · simp only [step, h2, Except.ok.injEq] at hstep0
        have hfilter : (c :: cs).filter
            (fun d => castOutcome d == Outcome.appended) =
            cs.filter (fun d => castOutcome d == Outcome.appended) := by
          simp [List.filter_cons, ho]
        rw [← hstep0] at h
        obtain ⟨ha, hb⟩ := ih l0 i0 o0 s hP h
        rw [hfilter]
        exact ⟨ha, hb⟩
      · simp only [step, h2] at hstep0
        cases hstep0
      · simp only [step, h2] at hstep0
        have hfilter : (c :: cs).filter
            (fun d => castOutcome d == Outcome.appended) =
            c :: cs.filter (fun d => castOutcome d == Outcome.appended) := by
          simp [List.filter_cons, ho]
        have hLP : profileCount (appendForm l0 i0 c zs sh dp) = i0 + 1 := by
          rw [profileCount_appendForm, hP]
        cases hbig : is_variable_too_big (appendForm l0 i0 c zs sh dp) with
        | true =>
          rw [if_pos hbig] at hstep0
          simp only [Except.ok.injEq] at hstep0
          rw [← hstep0] at h
          obtain ⟨ha, hb⟩ := ih initialize_variables.2.2.1
            initialize_variables.2.2.2 (o0 ++ [appendForm l0 i0 c zs sh dp])
            s rfl h
          simp only [List.map_append, List.map_cons, List.map_nil,
            List.sum_append, List.sum_cons, List.sum_nil, hLP,
            initialize_variables_counter] at hb
          rw [hfilter]
          refine ⟨ha, ?_⟩
          simp only [List.length_cons]
          omega
        | false =>
          rw [if_neg (by simp [hbig])] at hstep0
          simp only [Except.ok.injEq] at hstep0
          rw [← hstep0] at h
          obtain ⟨ha, hb⟩ := ih (appendForm l0 i0 c zs sh dp) (i0 + 1) o0
            s hLP h
          rw [hfilter]
          refine ⟨ha, ?_⟩
          simp only [List.length_cons]
          omega

/-- Observation-row conservation: the `depth` cells already flushed plus the
live ones grow by exactly the observation count of each appended cast. -/
theorem run_obs_conservation :
    ∀ (casts : List Cast) (l0 : DataLists) (i0 : Nat) (o0 : List DataLists)
      (s : RState),
      List.foldlM step ⟨l0, i0, o0⟩ casts = .ok s →
      (s.outs.map obsCount).sum + obsCount s.lists =
        (o0.map obsCount).sum + obsCount l0 +
          (((casts.filter fun d => castOutcome d == Outcome.appended).map
            castObsCount).sum) := by
  intro casts
  induction casts with
  | nil =>
    intro l0 i0 o0 s h
    simp only [List.foldlM_nil, pure, Except.pure, Except.ok.injEq] at h
    rw [← h]
    simp
  | cons c cs ih =>
    intro l0 i0 o0 s h
    rw [List.foldlM_cons] at h
    cases hstep0 : step ⟨l0, i0, o0⟩ c with
    | error e =>
      rw [hstep0] at h
      simp only [bind, Except.bind] at h
      cases h
    | ok s1 =>
      rw [hstep0] at h
      simp only [bind, Except.bind] at h
      rcases processCast_cases l0 i0 c with ⟨ho, h2, _, _⟩ |
        ⟨e, ho, h2⟩ | ⟨zs, sh, dp, ho, hz, hsh, hdp, h2⟩
      · simp only [step, h2, Except.ok.injEq] at hstep0
        rw [← hstep0] at h
        have hb := ih l0 i0 o0 s h
        simpa [List.filter_cons, ho] using hb
      · simp only [step, h2] at hstep0
        cases hstep0
      · simp only [step, h2] at hstep0
        have hLO : obsCount (appendForm l0 i0 c zs sh dp) =
            obsCount l0 + castObsCount c := by
          show ((appendForm l0 i0 c zs sh dp).depth).length = _
          simp [appendForm, numList, obsCount, castObsCount, hz]
        have hfilter : (c :: cs).filter
            (fun d => castOutcome d == Outcome.appended) =
            c :: cs.filter (fun d => castOutcome d == Outcome.appended) := by
          simp [List.filter_cons, ho]
        rw [hfilter]
        cases hbig : is_variable_too_big (appendForm l0 i0 c zs sh dp) with
        | true =>
          rw [if_pos hbig] at hstep0
          simp only [Except.ok.injEq] at hstep0
          rw [← hstep0] at h
          have hb := ih initialize_variables.2.2.1 initialize_variables.2.2.2
            (o0 ++ [appendForm l0 i0 c zs sh dp]) s h
          simp only [List.map_append, List.map_cons, List.map_nil,
            List.sum_append, List.sum_cons, List.sum_nil, hLO,
            initialize_variables_lists, obsCount_empty] at hb
          simp only [List.map_cons, List.sum_cons]
          omega
        | false =>
          rw [if_neg (by simp [hbig])] at hstep0
          simp only [Except.ok.injEq] at hstep0
          rw [← hstep0] at h
          have hb := ih (appendForm l0 i0 c zs sh dp) (i0 + 1) o0 s h
          rw [hLO] at hb
          simp only [List.map_cons, List.sum_cons]
          omega

/-! ## Value-independence of the size estimate -/

theorem lenEq_refl (a : DataLists) : lenEq a a := by
  unfold lenEq
  exact ⟨rfl, rfl, rfl, rfl, rfl, rfl, rfl, rfl, rfl, rfl, rfl, rfl, rfl,
    rfl, rfl, rfl, rfl, rfl, rfl, rfl, rfl, rfl⟩

/-- The summed container sizes depend only on the column lengths. -/
theorem total_sum_congr {a b : DataLists} (h : lenEq a b) :
    total_sum a = total_sum b := by
  obtain ⟨e1, e2, e3, e4, e5, e6, e7, e8, e9, e10, e11, e12, e13, e14, e15,
    e16, e17, e18, e19, e20, e21, e22⟩ := h
  unfold total_sum listSize
  omega

/-- The threshold verdict depends only on the column lengths. -/
theorem too_big_congr {a b : DataLists} (h : lenEq a b) :
    is_variable_too_big a = is_variable_too_big b := by
  rw [is_variable_too_big, is_variable_too_big, total_sum_congr h]

set_option maxHeartbeats 1000000 in
/-- One parallel step: casts with the same disposition and the same
observation count drive two accumulators with equal column lengths to
accumulators with equal column lengths, taking the same flush decision. -/
theorem step_parallel {s1 s2 : RState} {c1 c2 : Cast} {t1 t2 : RState}
    (hl : lenEq s1.lists s2.lists)
    (ho : castOutcome c1 = castOutcome c2)
    (hn : castObsCount c1 = castObsCount c2)
    (hw1 : wfB c1 = true) (hw2 : wfB c2 = true)
    (h1 : step s1 c1 = .ok t1) (h2 : step s2 c2 = .ok t2) :
    lenEq t1.lists t2.lists := by
  rcases processCast_cases s1.lists s1.i c1 with ⟨ho1, hp1, _, _⟩ |
    ⟨e1, ho1, hp1⟩ | ⟨zs1, sh1, dp1, ho1, hz1, hsh1, hdp1, hp1⟩ <;>
    rcases processCast_cases s2.lists s2.i c2 with ⟨ho2, hp2, _, _⟩ |
      ⟨e2, ho2, hp2⟩ | ⟨zs2, sh2, dp2, ho2, hz2, hsh2, hdp2, hp2⟩
  · simp only [step, hp1, Except.ok.injEq] at h1
    simp only [step, hp2, Except.ok.injEq] at h2
    rw [← h1, ← h2]
    exact hl
  · rw [ho1, ho2] at ho; cases ho
  · rw [ho1, ho2] at ho; cases ho
  · rw [ho1, ho2] at ho; cases ho
  · simp only [step, hp1] at h1
    cases h1
  · simp only [step, hp1] at h1
    cases h1
  · rw [ho1, ho2] at ho; cases ho
  · simp only [step, hp2] at h2
    cases h2
  · simp only [step, hp1] at h1
    simp only [step, hp2] at h2
    have hzn : zs1.length = zs2.length := by
      have := hn
      rw [castObsCount, castObsCount, hz1, hz2] at this
      exact this
    have hLeq : lenEq (appendForm s1.lists s1.i c1 zs1 sh1 dp1)
        (appendForm s2.lists s2.i c2 zs2 sh2 dp2) := by
      obtain ⟨a1, a2, a3, a4, a5, a6, a7, a8, a9, a10, a11, a12, a13, a14⟩ :=
        appendForm_profile_lengths s1.lists s1.i c1 zs1 sh1 dp1
      obtain ⟨b1, b2, b3, b4, b5, b6, b7, b8, b9, b10, b11, b12, b13, b14⟩ :=
        appendForm_profile_lengths s2.lists s2.i c2 zs2 sh2 dp2
      obtain ⟨oa1, oa2, oa3, oa4, oa5, oa6, oa7, oa8⟩ :=
        appendForm_obs_lengths s1.lists s1.i c1 zs1 sh1 dp1 hw1 hz1
      obtain ⟨ob1, ob2, ob3, ob4, ob5, ob6, ob7, ob8⟩ :=
        appendForm_obs_lengths s2.lists s2.i c2 zs2 sh2 dp2 hw2 hz2
      obtain ⟨e1, e2, e3, e4, e5, e6, e7, e8, e9, e10, e11, e12, e13, e14,
        e15, e16, e17, e18, e19, e20, e21, e22⟩ := hl
      exact ⟨by rw [a1, b1, e1], by rw [a2, b2, e2], by rw [a3, b3, e3],
        by rw [a4, b4, e4], by rw [a5, b5, e5], by rw [a6, b6, e6],
        by rw [a7, b7, e7], by rw [a8, b8, e8], by rw [a9, b9, e9],
        by rw [a10, b10, e10], by rw [a11, b11, e11], by rw [a12, b12, e12],
        by rw [a13, b13, e13], by rw [a14, b14, e14],
        by rw [oa8, ob8, e15, hzn], by rw [oa1, ob1, e16, hzn],
        by rw [oa2, ob2, e17, hzn], by rw [oa3, ob3, e18, hzn],
        by rw [oa4, ob4, e19, hzn], by rw [oa5, ob5, e20, hzn],
        by rw [oa6, ob6, e21, hzn], by rw [oa7, ob7, e22, hzn]⟩
    have hbigeq := too_big_congr hLeq
    cases hbig : is_variable_too_big (appendForm s1.lists s1.i c1 zs1 sh1 dp1)
      with
    | true =>
      have hbig2 : is_variable_too_big
          (appendForm s2.lists s2.i c2 zs2 sh2 dp2) = true := by
        rw [← hbigeq]; exact hbig
      rw [if_pos hbig] at h1
      rw [if_pos hbig2] at h2
      simp only [Except.ok.injEq] at h1 h2
      rw [← h1, ← h2]
      exact lenEq_refl _
    | false =>
      have hbig2 : is_variable_too_big
          (appendForm s2.lists s2.i c2 zs2 sh2 dp2) = false := by
        rw [← hbigeq]; exact hbig
      rw [if_neg (by simp [hbig])] at h1
      rw [if_neg (by simp [hbig2])] at h2
      simp only [Except.ok.injEq] at h1 h2
      rw [← h1, ← h2]
      exact hLeq

/-- Parallel runs over shape-related streams keep columnwise equal
lengths. -/
theorem run_parallel {cs1 cs2 : List Cast}
    (hR : List.Forall₂ ShapeRel cs1 cs2) :
    ∀ s1 s2 t1 t2, lenEq s1.lists s2.lists →
      List.foldlM step s1 cs1 = .ok t1 →
      List.foldlM step s2 cs2 = .ok t2 → lenEq t1.lists t2.lists := by
  induction hR with
  | nil =>
    intro s1 s2 t1 t2 hl h1 h2
    simp only [List.foldlM_nil, pure, Except.pure, Except.ok.injEq] at h1 h2
    rw [← h1, ← h2]
    exact hl
  | cons hab htail ih =>
    intro s1 s2 t1 t2 hl h1 h2
    rw [List.foldlM_cons] at h1 h2
    cases hstep1 : step s1 _ with
    | error e =>
      rw [hstep1] at h1
      simp only [bind, Except.bind] at h1
      cases h1
    | ok u1 =>
      rw [hstep1] at h1
      simp only [bind, Except.bind] at h1
      cases hstep2 : step s2 _ with
      | error e =>
        rw [hstep2] at h2
        simp only [bind, Except.bind] at h2
        cases h2
      | ok u2 =>
        rw [hstep2] at h2
        simp only [bind, Except.bind] at h2
        obtain ⟨hoo, hnn, hw1, hw2⟩ := hab
        exact ih u1 u2 t1 t2
          (step_parallel hl hoo hnn hw1 hw2 hstep1 hstep2) h1 h2

/-! ## Initial state facts -/

theorem inv_initState : Inv initState := by
  refine ⟨rfl, profileUniform_empty, ?_, ?_, ?_⟩
  · intro e he
    simp [initState, initialize_variables, emptyLists] at he
  · simp [initState, initialize_variables, emptyLists]
  · intro u hu
    simp [initState] at hu

theorem obsinv_initState : ObsInv initState := by
  refine ⟨obsUniform_empty, ?_⟩
  intro u hu
  simp [initState] at hu

/-! ## The claims -/

/-- C1: the claim says every cast with a depth series or a pressure series
is processed (either one suffices) and in particular a pressure-only cast is
not an error. On the code this fails: the guard of line 134, `if "z" and
"Pressure" in ds`, evaluates as `"Pressure" in ds`, so a pressure-only cast
enters the first branch and `ds["z"]` raises KeyError, aborting the run.
The neither-series part of the claim does hold: such a cast is skipped. -/
theorem claim1_pressure_only_crashes :
    processCast emptyLists 0 pressureOnlyCast = .error .keyError ∧
    read_raw_data [pressureOnlyCast] = .error .keyError ∧
    processCast emptyLists 0 ({} : Cast) = .skipped :=
  ⟨rfl, rfl, rfl⟩

/-- C8: the Attribute Schema is a fixed total mapping with exactly 15
profile-level output fields and 7 observation-level output fields, each key
appearing once, and every observation source field drawn from depth,
pressure, temperature, salinity and their four quality flags. -/
theorem claim8_schema_shape :
    string_attrs.length = 15 ∧ obs_attrs.length = 7 ∧
    (string_attrs.map Prod.fst).Nodup ∧ (obs_attrs.map Prod.fst).Nodup ∧
    ∀ p ∈ obs_attrs, p.2 ∈ (["z", "Pressure", "Temperature", "Salinity",
      "z_WODflag", "Pressure_WODflag", "Temperature_WODflag",
      "Salinity_WODflag"] : List String) := by
  decide

/-- C9: for a cast with more than one depth observation, all exactly zero,
the zero-exclusion selection is empty, Python `min` raises ValueError, and
the run aborts; the shallowest-depth computation is well-defined only when
some depth entry is nonzero. -/
theorem claim9_all_zero_depth_crashes (lists : DataLists) (i : Nat)
    (c : Cast) (zs : List Int) (hz : c.z = some zs) (hlen : 1 < zs.length)
    (hall : ∀ d ∈ zs, d = 0) :
    processCast lists i c = .error .valueError ∧
    ∀ rest, read_raw_data (c :: rest) = .error .valueError := by
  have hfilter : zs.filter (fun d => d ≠ 0) = [] := by
    rw [List.filter_eq_nil_iff]
    intro a ha
    simp [hall a ha]
  have hsh : shallowestOf zs = .error .valueError := by
    unfold shallowestOf
    rw [if_pos hlen, hfilter]
    rfl
  have hpc : ∀ (l : DataLists) (j : Nat),
      processCast l j c = .error .valueError := by
    intro l j
    rcases hp : c.pressure with _ | ps <;> simp [processCast, hp, hz, hsh]
  refine ⟨hpc lists i, ?_⟩
  intro rest
  have hstep : step initState c = .error .valueError := by
    simp [step, hpc]
  simp [read_raw_data, List.foldlM_cons, hstep, bind, Except.bind]

/-- C9 witness: a concrete two-entry all-zero depth series crashes the loop
body and the run. -/
theorem claim9_witness :
    processCast emptyLists 0 allZeroCast = .error .valueError ∧
    read_raw_data [allZeroCast] = .error .valueError := by
  have h := claim9_all_zero_depth_crashes emptyLists 0 allZeroCast [0, 0]
    rfl (by decide) (by decide)
  exact ⟨h.1, h.2 []⟩

/-- C4: when the append of a cast makes the size check trip, exactly one
flush occurs at that point: the step writes exactly the accumulated columns
(casts 1..k of the current unit) as one output unit and the new live state
has fresh empty columns and profile-index counter 0, so the next unit's
parent indices restart at 0 and can never carry over; when the check does
not trip, no flush occurs and nothing is written. -/
theorem claim4_flush_reset (s : RState) (c : Cast) (lists2 : DataLists)
    (i2 : Nat) (h : processCast s.lists s.i c = .appended lists2 i2) :
    (is_variable_too_big lists2 = true →
      step s c = .ok ⟨emptyLists, 0, s.outs ++ [lists2]⟩) ∧
    (is_variable_too_big lists2 = false →
      step s c = .ok ⟨lists2, i2, s.outs⟩) ∧
    profileCount emptyLists = 0 ∧ obsCount emptyLists = 0 ∧
    emptyLists.parent_index = [] := by
  refine ⟨?_, ?_, rfl, rfl, rfl⟩
  · intro hbig
    simp only [step, h]
    rw [if_pos hbig]
    rfl
  · intro hbig
    simp only [step, h]
    rw [if_neg (by simp [hbig])]

/-- Sufficient condition for the size check to trip: one column alone
reaching the threshold. -/
theorem too_big_of_platform (l : DataLists) (n : Nat)
    (h : l.platform.length = n) (hn : 157286400 ≤ 56 + 8 * n) :
    is_variable_too_big l = true := by
  unfold is_variable_too_big total_sum listSize
  have hle : 150 * 1024 * 1024 ≤
      56 + 8 * l.orig_profile_ID.length + (56 + 8 * l.orig_cruise_id.length) +
      (56 + 8 * l.access_no.length) + (56 + 8 * l.platform.length) +
      (56 + 8 * l.station_no.length) + (56 + 8 * l.instrument_type.length) +
      (56 + 8 * l.lat.length) + (56 + 8 * l.lon.length) +
      (56 + 8 * l.bottom_depth.length) + (56 + 8 * l.datestr.length) +
      (56 + 8 * l.timestamp.length) + (56 + 8 * l.orig_filename.length) +
      (56 + 8 * l.shallowest_depth.length) +
      (56 + 8 * l.deepest_depth.length) +
      (56 + 8 * l.parent_index.length) + (56 + 8 * l.depth.length) +
      (56 + 8 * l.press.length) + (56 + 8 * l.temp.length) +
      (56 + 8 * l.psal.length) + (56 + 8 * l.depth_flag.length) +
      (56 + 8 * l.temp_flag.length) + (56 + 8 * l.psal_flag.length) := by
    omega
  rw [if_pos hle]

/-- The platform column of `bigOut` indeed holds 20000001 cells. -/
theorem bigOut_platform_length : bigOut.platform.length = 20000001 := by
  show (bigLists.platform ++ [smallCast.platform.getD Val.nan]).length =
    20000001
  rw [List.length_append]
  have h : bigLists.platform.length = 20000000 := by
    show (List.replicate 20000000 Val.nan).length = 20000000
    rw [List.length_replicate]
  rw [h]
  rfl

/-- C4 witness: a concrete append that crosses the 150 MB threshold flushes
exactly the accumulated columns and resets the columns and the counter. -/
theorem claim4_witness :
    step bigState smallCast =
      .ok ⟨emptyLists, 0, bigState.outs ++ [bigOut]⟩ := by
  have happ : processCast bigState.lists bigState.i smallCast =
      .appended bigOut 8 := rfl
  have hbig : is_variable_too_big bigOut = true :=
    too_big_of_platform bigOut 20000001 bigOut_platform_length (by norm_num)
  exact (claim4_flush_reset bigState smallCast bigOut 8 happ).1 hbig

/-- C2: for every output unit written by a successful run, every
parent_index entry lies below that unit's profile count P (hence within
[0, P-1], the entries being naturals) and the entries are non-decreasing in
observation order; moreover each appended cast contributes exactly its
observation count of copies of the pre-increment profile counter value. -/
theorem claim2_parent_index_consistency (casts : List Cast)
    (units : List DataLists) (h : read_raw_data casts = .ok units) :
    (∀ u ∈ units, (∀ e ∈ u.parent_index, e < profileCount u) ∧
      u.parent_index.Chain' (· ≤ ·)) ∧
    ∀ (lists : DataLists) (i : Nat) (c : Cast) (lists2 : DataLists)
      (i2 : Nat), processCast lists i c = .appended lists2 i2 →
      lists2.parent_index =
        lists.parent_index ++ List.replicate (castObsCount c) i ∧
        i2 = i + 1 := by
  constructor
  · unfold read_raw_data at h
    cases hrun : List.foldlM step initState casts with
    | error e =>
      rw [hrun] at h
      cases h
    | ok s =>
      rw [hrun] at h
      simp only [Except.ok.injEq] at h
      have hinv : Inv s := foldlM_inv Inv (fun _ => True)
        (fun s0 c s1 _ hp hst => step_preserves_inv hst hp) casts initState s
        (fun _ _ => trivial) inv_initState hrun
      obtain ⟨hP, _, hPE, hPC, hOuts⟩ := hinv
      intro u hu
      rw [← h] at hu
      rcases List.mem_append.1 hu with hu | hu
      · exact ⟨(hOuts u hu).1.1, (hOuts u hu).1.2⟩
      · rw [List.mem_singleton] at hu
        subst hu
        exact ⟨fun e he => by rw [hP]; exact hPE e he, hPC⟩
  · intro lists i c lists2 i2 hpc
    obtain ⟨zs, sh, dp, hz, _, hsh, hdp, hform, hi⟩ :=
      processCast_appended_inv hpc
    refine ⟨?_, hi⟩
    rw [hform]
    show lists.parent_index ++ List.replicate zs.length i = _
    simp [castObsCount, hz]

/-- C2 witness: a one-cast run yields one unit whose parent indices are
bounded by its profile count and non-decreasing. -/
theorem claim2_witness :
    (∀ e ∈ smallOut.parent_index, e < profileCount smallOut) ∧
      smallOut.parent_index.Chain' (· ≤ ·) :=
  (claim2_parent_index_consistency [smallCast] [smallOut] rfl).1 smallOut
    (by simp)

/-- C3: after any successfully processed prefix of a stream of well-formed
casts, all 14 profile-level columns share one length P (equal to the live
counter, the number of casts appended since the last reset), all 8
observation-level columns including parent_index share one length O, the
same uniformity holds in every flushed unit, and the observation cells,
flushed plus live, sum to exactly the appended casts' observation counts. -/
theorem claim3_length_uniformity (casts : List Cast) (s : RState)
    (hwf : ∀ c ∈ casts, wfB c = true)
    (hrun : List.foldlM step initState casts = .ok s) :
    (profileUniform s.lists ∧ obsUniform s.lists ∧
      profileCount s.lists = s.i) ∧
    (∀ u ∈ s.outs, profileUniform u ∧ obsUniform u) ∧
    (s.outs.map obsCount).sum + obsCount s.lists =
      ((casts.filter fun d => castOutcome d == Outcome.appended).map
        castObsCount).sum := by
  have hinv : Inv s := foldlM_inv Inv (fun _ => True)
    (fun s0 c s1 _ hp hst => step_preserves_inv hst hp) casts initState s
    (fun _ _ => trivial) inv_initState hrun
  have hobs : ObsInv s := foldlM_inv ObsInv (fun c => wfB c = true)
    (fun s0 c s1 hq hp hst => step_preserves_obsinv hst hq hp) casts
    initState s hwf obsinv_initState hrun
  have hcons := run_obs_conservation casts initialize_variables.2.2.1
    initialize_variables.2.2.2 [] s hrun
  obtain ⟨hP, hPU, _, _, hOuts⟩ := hinv
  obtain ⟨hOU, hOOuts⟩ := hobs
  refine ⟨⟨hPU, hOU, hP⟩, ?_, ?_⟩
  · intro u hu
    exact ⟨(hOuts u hu).2, hOOuts u hu⟩
  · simpa [initialize_variables, emptyLists, obsCount] using hcons

/-- C3 witness: the one-cast run has uniform profile columns of length 1
and uniform observation columns. -/
theorem claim3_witness :
    profileUniform smallOut ∧ obsUniform smallOut ∧
      profileCount smallOut = 1 := by
  have h := claim3_length_uniformity [smallCast] ⟨smallOut, 1, []⟩
    (by
      intro c hc
      simp only [List.mem_singleton] at hc
      rw [hc]
      rfl) rfl
  exact h.1

/-- C5: after the stream is exhausted, one final flush runs unconditionally
(the written units are exactly the mid-run flushes followed by the live
accumulator, even when the threshold was never crossed or the accumulator is
empty), and the profile rows across all written units count exactly the
non-skipped casts, so no buffered cast is dropped. -/
theorem claim5_final_flush (casts : List Cast) (s : RState)
    (hrun : List.foldlM step initState casts = .ok s) :
    read_raw_data casts = .ok (s.outs ++ [s.lists]) ∧
    ((s.outs ++ [s.lists]).map profileCount).sum =
      (casts.filter fun d => castOutcome d == Outcome.appended).length := by
  constructor
  · unfold read_raw_data
    rw [hrun]
  · obtain ⟨hP, hsum⟩ := run_profile_conservation casts
      initialize_variables.2.2.1 initialize_variables.2.2.2 [] s rfl hrun
    simp only [List.map_nil, List.sum_nil, initialize_variables_counter,
      Nat.zero_add, Nat.add_zero] at hsum
    simp only [List.map_append, List.map_cons, List.map_nil,
      List.sum_append, List.sum_cons, List.sum_nil]
    omega

/-- C5 witness: a one-cast run that never crosses the threshold still
writes exactly one final unit holding that cast. -/
theorem claim5_witness :
    read_raw_data [smallCast] = .ok ([] ++ [smallOut]) ∧
      (([] ++ [smallOut]).map profileCount).sum =
        ([smallCast].filter fun d =>
          castOutcome d == Outcome.appended).length :=
  claim5_final_flush [smallCast] ⟨smallOut, 1, []⟩ rfl

/-- Closed form of the disposition: it depends only on the presence of the
pressure and depth series and on the depth values, never on the date
fields. -/
theorem castOutcome_eq (c : Cast) :
    castOutcome c =
      match c.pressure, c.z with
      | some _, none => .crashed .keyError
      | none, none => .skipped
      | _, some zs =>
        (match shallowestOf zs, pyMax zs with
         | .error e, _ => .crashed e
         | .ok _, .error e => .crashed e
         | .ok _, .ok _ => .appended) := by
  rcases hp : c.pressure with _ | ps <;> rcases hz : c.z with _ | zs
  · simp [castOutcome, processCast, hp, hz]
  · simp only [castOutcome, processCast, hp, hz]
    cases hsh : shallowestOf zs with
    | error e => simp [hsh]
    | ok sh =>
      cases hdp : pyMax zs with
      | error e => simp [hsh, hdp]
      | ok dp => simp [hsh, hdp]
  · simp [castOutcome, processCast, hp, hz]
  · simp only [castOutcome, processCast, hp, hz]
    cases hsh : shallowestOf zs with
    | error e => simp [hsh]
    | ok sh =>
      cases hdp : pyMax zs with
      | error e => simp [hsh, hdp]
      | ok dp => simp [hsh, hdp]

/-- Changing or removing the date fields never changes whether a cast is
skipped, appended or crashes. -/
theorem castOutcome_date_irrelevant (c : Cast) (d : Option Nat)
    (g : Option ℚ) :
    castOutcome { c with date := d, gmtTime := g } = castOutcome c := by
  rw [castOutcome_eq, castOutcome_eq]

/-- C6: for a non-skipped (appended) cast on which the date extraction
fails — a source field absent or the datetime decoding raising — both the
timestamp and the date-string profile entries receive the NaN sentinel while
the cast is still fully recorded (one new profile row, its observation rows,
counter incremented), and the date fields can never change a cast's
disposition, so a date failure neither discards the cast nor aborts the
run. -/
theorem claim6_date_failure_sentinels (lists : DataLists) (i : Nat)
    (c : Cast) (lists2 : DataLists) (i2 : Nat)
    (h : processCast lists i c = .appended lists2 i2)
    (hd : dateResult c = none) :
    lists2.timestamp = lists.timestamp ++ [Val.nan] ∧
    lists2.datestr = lists.datestr ++ [Val.nan] ∧
    profileCount lists2 = profileCount lists + 1 ∧
    obsCount lists2 = obsCount lists + castObsCount c ∧
    i2 = i + 1 ∧
    ∀ d g, castOutcome { c with date := d, gmtTime := g } = castOutcome c := by
  obtain ⟨zs, sh, dp, hz, _, hsh, hdp, hform, hi⟩ := processCast_appended_inv h
  subst hform
  refine ⟨?_, ?_, profileCount_appendForm lists i c zs sh dp, ?_, hi,
    fun d g => castOutcome_date_irrelevant c d g⟩
  · show lists.timestamp ++
      [(dateResult c).elim Val.nan fun p => Val.num p.1] = _
    rw [hd]
    rfl
  · show lists.datestr ++
      [(dateResult c).elim Val.nan fun p => Val.str p.2] = _
    rw [hd]
    rfl
  · show ((appendForm lists i c zs sh dp).depth).length = _
    simp [appendForm, numList, obsCount, castObsCount, hz]

/-- C6 witness: a cast with an invalid calendar date (month 13) is still
appended, with NaN in both the timestamp and the date-string cells. -/
theorem claim6_witness :
    dateFailOut.timestamp = emptyLists.timestamp ++ [Val.nan] ∧
      dateFailOut.datestr = emptyLists.datestr ++ [Val.nan] := by
  have h := claim6_date_failure_sentinels emptyLists 0 dateFailCast
    dateFailOut 1 rfl rfl
  exact ⟨h.1, h.2.1⟩

/-- C7: for an appended cast with depth series zs, when zs has more than one
entry the recorded shallowest depth is the least nonzero entry of zs (the
minimum over the entries different from exactly 0); when zs is a single
entry the recorded shallowest depth is that bare value, zero included; and
the recorded deepest depth is always the maximum of the full, unfiltered
series. -/
theorem claim7_shallow_deep (lists : DataLists) (i : Nat) (c : Cast)
    (zs : List Int) (lists2 : DataLists) (i2 : Nat) (hz : c.z = some zs)
    (h : processCast lists i c = .appended lists2 i2) :
    (1 < zs.length → ∃ m, lists2.shallowest_depth =
        lists.shallowest_depth ++ [Val.num m] ∧ m ∈ zs ∧ m ≠ 0 ∧
        ∀ x ∈ zs, x ≠ 0 → m ≤ x) ∧
    (∀ d : Int, zs = [d] → lists2.shallowest_depth =
        lists.shallowest_depth ++ [Val.num d]) ∧
    ∃ M, lists2.deepest_depth = lists.deepest_depth ++ [Val.num M] ∧
      M ∈ zs ∧ ∀ x ∈ zs, x ≤ M := by
  obtain ⟨zs', sh, dp, hz', _, hsh, hdp, hform, hi⟩ :=
    processCast_appended_inv h
  rw [hz] at hz'
  injection hz' with hzz
  subst hzz
  subst hform
  refine ⟨?_, ?_, ?_⟩
  · intro hlen
    unfold shallowestOf at hsh
    rw [if_pos hlen] at hsh
    obtain ⟨hm, hle⟩ := pyMin_spec hsh
    simp only [List.mem_filter, decide_eq_true_eq] at hm
    exact ⟨sh, rfl, hm.1, hm.2, fun x hx hx0 =>
      hle x (List.mem_filter.2 ⟨hx, decide_eq_true hx0⟩)⟩
  · intro d hd
    subst hd
    unfold shallowestOf at hsh
    rw [if_neg (by simp)] at hsh
    simp only [pyMin, List.foldl_nil, Except.ok.injEq] at hsh
    rw [← hsh]
    rfl
  · exact ⟨dp, rfl, (pyMax_spec hdp).1, (pyMax_spec hdp).2⟩

/-- C7 witness: the intentional asymmetry at a single zero depth — the
zero-exclusion rule is not applied and the shallowest depth is recorded as
0. -/
theorem claim7_witness :
    zeroOut.shallowest_depth = emptyLists.shallowest_depth ++ [Val.num 0] :=
  (claim7_shallow_deep emptyLists 0 zeroCast [0] zeroOut 1 rfl rfl).2.1 0 rfl

/-- C10: the size estimate sums only container-level sizes: two runs over
shape-related streams (same dispositions, same per-cast observation counts,
both well-formed — stored numeric values unconstrained) end with the same
byte total and the same exceeds-threshold verdict. -/
theorem claim10_size_value_independence (cs1 cs2 : List Cast)
    (hR : List.Forall₂ ShapeRel cs1 cs2) (t1 t2 : RState)
    (h1 : List.foldlM step initState cs1 = .ok t1)
    (h2 : List.foldlM step initState cs2 = .ok t2) :
    total_sum t1.lists = total_sum t2.lists ∧
    is_variable_too_big t1.lists = is_variable_too_big t2.lists := by
  have hl := run_parallel hR initState initState t1 t2
    (lenEq_refl initState.lists) h1 h2
  exact ⟨total_sum_congr hl, too_big_congr hl⟩

/-- C10 witness: two single-cast streams with different stored depth values
but the same shape produce equal size totals and verdicts. -/
theorem claim10_witness :
    total_sum shapeOutA = total_sum shapeOutB ∧
      is_variable_too_big shapeOutA = is_variable_too_big shapeOutB :=
  claim10_size_value_independence [shapeCastA] [shapeCastB]
    (List.Forall₂.cons ⟨rfl, rfl, rfl, rfl⟩ List.Forall₂.nil)
    ⟨shapeOutA, 1, []⟩ ⟨shapeOutB, 1, []⟩ rfl rfl

end WOD2022
